import Mathlib

/-!
Verification development for the hera-workflows authoring SDK
(`src/hera/dag.py`, `src/hera/workflow.py`).

The development shallowly embeds the graph-to-specification compiler:
the `DAG` class, its recursive template / dag-task / shared-resource
builders, and the `Workflow` top-level assembler with its input and
metrics normalizers, exit-hook registrar, back-reference resolution and
the transport-level `create` entry point.

Python conventions mapped to Lean:
* `Optional[X]` fields become `Option X`; an operation that would raise
  on a `None` (e.g. iterating `self.tasks` when it is `None`) returns
  `none` / `Except.error PyErr.typeError`.
* `dict` insertion (`d[k] = v`) is modelled by `dinsert`: replace the
  existing entry for the key in place, otherwise append; `list(d.values())`
  is the resulting list itself (entries are keyed by a function of the
  stored value, exactly as in the source, where keys are always names of
  the stored objects).
* The `Task` class (`hera/task.py`) is not part of the sources under
  verification; its attributes and build operations consumed by the
  compiler are modelled from the spec (see the `Modelled from the spec:`
  doc comments).
* Engine model types (`hera.models.*`) are external pydantic containers;
  they are modelled as records holding exactly the fields the compiler
  reads or writes, with an opaque `Nat` payload standing in for the rest.
-/

namespace Hera

/-- `hera.parameter.Parameter` (external value object): a name plus optional value. -/
structure Parameter where
  name : String
  value : Option String
deriving DecidableEq, Repr

/-- `hera.artifact.Artifact` (external value object), identified by name. -/
structure Artifact where
  name : String
deriving DecidableEq, Repr

/-- An element of an inputs/outputs list: `Union[Parameter, Artifact]`. -/
inductive Value where
  | param (p : Parameter)
  | artifact (a : Artifact)
deriving DecidableEq, Repr

/-- `.name`, defined on both `Parameter` and `Artifact`. -/
def Value.name : Value → String
  | .param p => p.name
  | .artifact a => a.name

/-- `isinstance(obj, Parameter)` filter step. -/
def Value.asParam : Value → Option Parameter
  | .param p => some p
  | .artifact _ => none

/-- `isinstance(obj, Artifact)` filter step. -/
def Value.asArtifact : Value → Option Artifact
  | .param _ => none
  | .artifact a => some a

/-- Python exception kinds raised by the modelled code paths. -/
inductive PyErr where
  | keyError
  | typeError
  | valueError
  | attributeError
  | assertionError
deriving DecidableEq, Repr

/-! ### Input normalizer (`DAG._parse_inputs` / `Workflow._parse_inputs`)

The two methods are character-identical in `dag.py` and `workflow.py`;
they are embedded once.  A Python `dict` argument is modelled as its
ordered list of key/value entries (Python dicts iterate in insertion
order). -/

/-- One element of a list-shaped `inputs` argument:
`Union[Parameter, Artifact, Dict[str, Any]]`. -/
inductive InItem where
  | p (x : Parameter)
  | a (x : Artifact)
  | d (m : List (String × String))
deriving DecidableEq, Repr

/-- The `inputs` argument itself: a single dict or a list. -/
inductive InputsArg where
  | dict (m : List (String × String))
  | list (xs : List InItem)
deriving DecidableEq, Repr

/-- Loop body of `_parse_inputs` over a list-shaped argument: typed
entries pass through, dict elements expand entry-wise. -/
def parseInputsList : List InItem → List Value
  | [] => []
  | .p x :: r => .param x :: parseInputsList r
  | .a x :: r => .artifact x :: parseInputsList r
  | .d m :: r => m.map (fun kv => Value.param ⟨kv.1, some kv.2⟩) ++ parseInputsList r

/-- `_parse_inputs` (dag.py lines 67-102 = workflow.py lines 212-232):
`None` gives `[]`; a dict expands entry-wise into `Parameter`s; a list
is walked element-wise. -/
def parse_inputs : Option InputsArg → List Value
  | none => []
  | some (.dict m) => m.map (fun kv => Value.param ⟨kv.1, some kv.2⟩)
  | some (.list xs) => parseInputsList xs

/-- The per-element expansion `parse_inputs` performs on a list argument. -/
def expandItem : InItem → List Value
  | .p x => [.param x]
  | .a x => [.artifact x]
  | .d m => m.map (fun kv => Value.param ⟨kv.1, some kv.2⟩)

theorem parseInputsList_eq_flatMap (xs : List InItem) :
    parseInputsList xs = xs.flatMap expandItem := by
  induction xs with
  | nil => rfl
  | cons x r ih => cases x <;> simp [parseInputsList, expandItem, ih]

/-! ### Name-keyed dict machinery

`vcs = dict(); ...; vcs[v.metadata.name] = v; ...; list(vcs.values())`
from `_build_volume_claim_templates` / `_build_persistent_volume_claims`.
The dict is modelled as the list of its values in insertion order; the
key of an entry is computed from the value itself (`key`), as in the
source, where every stored value is keyed by its own name. -/

/-- `d[key v] = v` on a name-keyed dict: replace in place if the key is
present, else append. -/
def dinsert (key : α → String) (m : List α) (v : α) : List α :=
  if m.any (fun x => key x == key v) then
    m.map (fun x => if key x = key v then v else x)
  else m ++ [v]

/-- Fold a sequence of declarations into a name-keyed dict. -/
def dfold (key : α → String) (m : List α) (l : List α) : List α :=
  l.foldl (dinsert key) m

/-- The last element of `l` whose key is `k`: "the declaration visited
last" of the spec's dedup rule. -/
def lastWith (key : α → String) (k : String) : List α → Option α
  | [] => none
  | v :: l =>
    match lastWith key k l with
    | some w => some w
    | none => if key v = k then some v else none

theorem dfold_append (key : α → String) (m a b : List α) :
    dfold key m (a ++ b) = dfold key (dfold key m a) b := by
  simp [dfold, List.foldl_append]

theorem lastWith_append (key : α → String) (k : String) (a b : List α) :
    lastWith key k (a ++ b) =
      match lastWith key k b with
      | some w => some w
      | none => lastWith key k a := by
  induction a with
  | nil => cases h : lastWith key k b <;> simp [lastWith, h]
  | cons v a ih =>
    simp only [List.cons_append]
    show (match lastWith key k (a ++ b) with
      | some w => some w
      | none => if key v = k then some v else none) = _
    rw [ih]
    cases h : lastWith key k b <;> cases h' : lastWith key k a <;>
      simp [lastWith, h, h']

theorem toList_getLast? (o : Option α) : o.toList.getLast? = o := by
  cases o <;> rfl

/-- Replacing the entry at a key does not change the key list. -/
theorem dinsert_map_key_replace (key : α → String) (m : List α) (v : α) :
    (m.map (fun x => if key x = key v then v else x)).map key = m.map key := by
  rw [List.map_map]
  refine List.map_congr_left ?_
  intro x _
  by_cases h : key x = key v
  · simp [Function.comp, h]
  · simp [Function.comp, h]

/-- Keys of the dict stay distinct under insertion. -/
theorem dinsert_nodup (key : α → String) (m : List α) (v : α)
    (h : (m.map key).Nodup) : ((dinsert key m v).map key).Nodup := by
  unfold dinsert
  by_cases hc : (m.any fun x => key x == key v) = true
  · rw [if_pos hc, dinsert_map_key_replace]; exact h
  · rw [if_neg hc]
    simp only [List.map_append, List.map_singleton]
    rw [List.nodup_append]
    refine ⟨h, List.nodup_singleton _, ?_⟩
    intro s hs ht
    simp only [List.mem_singleton] at ht
    subst ht
    simp only [List.mem_map] at hs
    obtain ⟨z, hz, hzv⟩ := hs
    rw [List.any_eq_true] at hc
    exact hc ⟨z, hz, by simp [hzv]⟩

theorem dinsert_cons_ne (key : α → String) (x : α) (m : List α) (v : α)
    (h : ¬ key x = key v) : dinsert key (x :: m) v = x :: dinsert key m v := by
  unfold dinsert
  have hx : (key x == key v) = false := by simp [h]
  by_cases hm : (m.any fun z => key z == key v) = true
  · rw [if_pos (by simp [List.any_cons, hx, hm]), if_pos hm]
    rw [List.map_cons, if_neg h]
  · rw [Bool.not_eq_true] at hm
    rw [if_neg (by simp [List.any_cons, hx, hm]), if_neg (by simp [hm])]
    simp

theorem dinsert_cons_eq (key : α → String) (x : α) (m : List α) (v : α)
    (h : key x = key v) (hnd : ((x :: m).map key).Nodup) :
    dinsert key (x :: m) v = v :: m := by
  unfold dinsert
  have hx : (key x == key v) = true := by simp [h]
  rw [if_pos (by simp [List.any_cons, hx]), List.map_cons, if_pos h]
  congr 1
  have hnone : ∀ z ∈ m, ¬ key z = key v := by
    intro z hz hzv
    rw [List.map_cons, List.nodup_cons] at hnd
    exact hnd.1 (by
      rw [h, ← hzv]
      exact List.mem_map_of_mem key hz)
  calc m.map (fun z => if key z = key v then v else z)
      = m.map id := List.map_congr_left (fun z hz => by simp [hnone z hz])
    _ = m := List.map_id m

theorem filter_key_eq_nil (key : α → String) (k : String) (m : List α)
    (h : ∀ z ∈ m, ¬ key z = k) :
    m.filter (fun x => key x == k) = [] := by
  rw [List.filter_eq_nil_iff]
  intro z hz
  simp [h z hz]

theorem dinsert_filter_eq (key : α → String) (v : α) :
    ∀ m : List α, (m.map key).Nodup →
      (dinsert key m v).filter (fun x => key x == key v) = [v] := by
  intro m
  induction m with
  | nil => intro _; simp [dinsert]
  | cons x m ih =>
    intro hnd
    by_cases h : key x = key v
    · rw [dinsert_cons_eq key x m v h hnd]
      have hnone : ∀ z ∈ m, ¬ key z = key v := by
        intro z hz hzv
        rw [List.map_cons, List.nodup_cons] at hnd
        exact hnd.1 (by
          rw [h, ← hzv]
          exact List.mem_map_of_mem key hz)
      simp [List.filter_cons, filter_key_eq_nil key (key v) m hnone]
    · rw [dinsert_cons_ne key x m v h]
      rw [List.map_cons, List.nodup_cons] at hnd
      simp [List.filter_cons, h, ih hnd.2]

theorem dinsert_filter_ne (key : α → String) (v : α) (k : String) (hk : ¬ k = key v) :
    ∀ m : List α, (m.map key).Nodup →
      (dinsert key m v).filter (fun x => key x == k) = m.filter (fun x => key x == k) := by
  intro m
  induction m with
  | nil =>
    intro _
    have hv : ¬ key v = k := fun hh => hk hh.symm
    simp [dinsert, List.filter_cons, hv]
  | cons x m ih =>
    intro hnd
    by_cases h : key x = key v
    · rw [dinsert_cons_eq key x m v h hnd]
      have hv : ¬ key v = k := fun hh => hk hh.symm
      have hxk : ¬ key x = k := by rw [h]; exact hv
      simp [List.filter_cons, hv, hxk]
    · rw [dinsert_cons_ne key x m v h]
      rw [List.map_cons, List.nodup_cons] at hnd
      simp [List.filter_cons, ih hnd.2]

/-- Master characterization: after folding a declaration sequence `l` into a
name-keyed dict `m`, the entries at key `k` are exactly the singleton of the
last `l`-declaration with that key (and `m`'s entries at `k` when `l` never
declares `k`). -/
theorem dfold_filter (key : α → String) (k : String) :
    ∀ (l m : List α), (m.map key).Nodup →
      (dfold key m l).filter (fun x => key x == k) =
        match lastWith key k l with
        | some w => [w]
        | none => m.filter (fun x => key x == k) := by
  intro l
  induction l with
  | nil => intro m _; simp [dfold, lastWith]
  | cons v l ih =>
    intro m hnd
    have step : dfold key m (v :: l) = dfold key (dinsert key m v) l := rfl
    rw [step, ih (dinsert key m v) (dinsert_nodup key m v hnd)]
    cases h : lastWith key k l with
    | some w => simp [lastWith, h]
    | none =>
      by_cases hkv : key v = k
      · subst hkv
        simp only [lastWith, h, if_pos rfl]
        exact dinsert_filter_eq key v m hnd
      · simp only [lastWith, h, if_neg hkv]
        exact dinsert_filter_ne key v k (fun hh => hkv hh.symm) m hnd

/-- Folding a declaration sequence into an empty dict keeps, for each name,
exactly the last declaration carrying it. -/
theorem dfold_nil_filter (key : α → String) (k : String) (l : List α) :
    (dfold key [] l).filter (fun x => key x == k) = (lastWith key k l).toList := by
  have h := dfold_filter key k l [] (by simp)
  cases hl : lastWith key k l <;> rw [hl] at h <;> simpa using h

/-! ### Engine model containers (`hera.models.*`, external)

Each holds exactly the fields the compiler reads or writes; `spec` /
`payload` is an opaque stand-in for the remaining engine fields. -/

structure Metadata where
  name : String
deriving DecidableEq, Repr

/-- `hera.models.PersistentVolumeClaim`: a volume claim template, identified
by `metadata.name`. -/
structure PersistentVolumeClaim where
  metadata : Metadata
  spec : Nat
deriving DecidableEq, Repr

/-- `hera.models.Volume`: a persistent volume claim entry, identified by `name`. -/
structure Volume where
  name : String
  spec : Nat
deriving DecidableEq, Repr

/-- `hera.models.DAGTask`: an engine-facing dependency descriptor. -/
structure DAGTaskD where
  name : String
  payload : Nat
deriving DecidableEq, Repr

structure ModelInputs where
  parameters : List Parameter
  artifacts : List Artifact
deriving DecidableEq, Repr

structure ModelOutputs where
  parameters : List Parameter
  artifacts : List Artifact
deriving DecidableEq, Repr

/-- `hera.models.DAGTemplate`. -/
structure DAGTemplateM where
  tasks : List DAGTaskD
deriving DecidableEq, Repr

/-- `hera.models.Template`. -/
structure TemplateM where
  name : String
  inputs : ModelInputs
  outputs : ModelOutputs
  dag : DAGTemplateM
deriving DecidableEq, Repr

/-! ### The authored object graph

`DAG.__init__` (dag.py lines 48-65) stores `name`, the normalized
`inputs` list, and the `outputs` / `tasks` arguments exactly as passed
(`None` stays `None`).  A `Task` (hera/task.py, not under the verified
sources) is modelled from the spec: a name, an optional nested pipeline,
an exit-task flag, and the values returned by the build operations the
compiler consumes (`_build_template`, `_build_dag_task`,
`_build_volume_claim_templates`, `_build_persistent_volume_claims`). -/

mutual
inductive Task : Type where
  | mk (name : String) (dag : Option DAG) (is_exit_task : Bool)
      (template : Option TemplateM) (descriptor : DAGTaskD)
      (volume_claim_templates : List PersistentVolumeClaim)
      (persistent_volume_claims : List Volume) : Task
inductive DAG : Type where
  | mk (name : String) (inputs : List Value) (outputs : Option (List Value))
      (tasks : Option (List Task)) : DAG
end

def Task.name : Task → String
  | .mk n _ _ _ _ _ _ => n

def Task.dag : Task → Option DAG
  | .mk _ d _ _ _ _ _ => d

def Task.is_exit_task : Task → Bool
  | .mk _ _ e _ _ _ _ => e

/-- Modelled from the spec: the unit of work's operation "to produce its
own template (or no template if not applicable)" (spec section 6); the value
it returns is carried as a field. -/
def Task.template : Task → Option TemplateM
  | .mk _ _ _ t _ _ _ => t

def Task.descriptor : Task → DAGTaskD
  | .mk _ _ _ _ ds _ _ => ds

/-- Modelled from the spec: the unit of work's declared volume claim
template list, as returned by `Task._build_volume_claim_templates`. -/
def Task.volume_claim_templates : Task → List PersistentVolumeClaim
  | .mk _ _ _ _ _ v _ => v

/-- Modelled from the spec: the unit of work's declared persistent volume
claim list, as returned by `Task._build_persistent_volume_claims`. -/
def Task.persistent_volume_claims : Task → List Volume
  | .mk _ _ _ _ _ _ p => p

/-- `other.is_exit_task = True` (workflow.py line 354), mutating the task. -/
def Task.withExitFlag : Task → Task
  | .mk n d _ t ds v p => .mk n d true t ds v p

/-- Modelled from the spec: the unit of work's operation to produce "its
own dependency descriptor (or none if it is an exit task)" (spec section 6). -/
def Task.build_dag_task (t : Task) : Option DAGTaskD :=
  if t.is_exit_task then none else some t.descriptor

def DAG.name : DAG → String
  | .mk n _ _ _ => n

def DAG.inputs : DAG → List Value
  | .mk _ i _ _ => i

def DAG.outputs : DAG → Option (List Value)
  | .mk _ _ o _ => o

def DAG.tasks : DAG → Option (List Task)
  | .mk _ _ _ t => t

def DAG.withTasks : DAG → Option (List Task) → DAG
  | .mk n i o _, ts => .mk n i o ts

/-- `DAG.__init__`: normalizes `inputs`, stores `outputs` and `tasks` as
passed (name-format validation is an external collaborator and out of
scope). -/
def DAG.init (name : String) (inputs : Option InputsArg)
    (outputs : Option (List Value)) (tasks : Option (List Task)) : DAG :=
  .mk name (parse_inputs inputs) outputs tasks

/-- `DAG.add_task` (dag.py lines 185-188): `self.tasks.append(t)`; an
`AttributeError` (modelled as `none`) when `tasks` was left `None`. -/
def DAG.add_task (d : DAG) (t : Task) : Option DAG :=
  match d with
  | .mk _ _ _ none => none
  | .mk n i o (some ts) => some (.mk n i o (some (ts ++ [t])))

/-- The inner list comprehension of `DAG._build_dag_tasks` (dag.py line 116)
over a given task list: drop exit tasks, build each descriptor, drop falsy
results. -/
def buildDagTasksList (ts : List Task) : List DAGTaskD :=
  (ts.filter (fun t => !t.is_exit_task)).filterMap Task.build_dag_task

/-- `DAG._build_dag_tasks` (dag.py lines 113-117); total: returns `[]`
when `tasks` is `None`. -/
def DAG.build_dag_tasks : DAG → List DAGTaskD
  | .mk _ _ _ none => []
  | .mk _ _ _ (some ts) => buildDagTasksList ts

mutual
/-- `DAG._build_templates` (dag.py lines 104-111): the owned tasks'
own templates (falsy ones dropped), then each nested pipeline's
recursively flattened task templates; `[]` when `tasks` is `None`. -/
def DAG.build_templates : DAG → List TemplateM
  | .mk _ _ _ none => []
  | .mk _ _ _ (some ts) => ts.filterMap Task.template ++ subTemplates ts
/-- The flattened `[t.dag._build_templates() for t in self.tasks if t.dag]`. -/
def subTemplates : List Task → List TemplateM
  | [] => []
  | .mk _ none _ _ _ _ _ :: ts => subTemplates ts
  | .mk _ (some d) _ _ _ _ _ :: ts => DAG.build_templates d ++ subTemplates ts
end

mutual
/-- `DAG.build` (dag.py lines 150-168): the pipeline's own template
(crashing — `none` — when `outputs` or `tasks` is `None`), followed by the
recursively flattened sub-pipeline templates. -/
def DAG.build : DAG → Option (List TemplateM)
  | .mk _ _ none _ => none
  | .mk _ _ (some _) none => none
  | .mk n ins (some outs) (some ts) =>
    match buildSubDags ts with
    | none => none
    | some subs =>
      some (⟨n,
             ⟨ins.filterMap Value.asParam, ins.filterMap Value.asArtifact⟩,
             ⟨outs.filterMap Value.asParam, outs.filterMap Value.asArtifact⟩,
             ⟨buildDagTasksList ts⟩⟩ :: subs)
/-- The flattened `[t.dag.build() for t in self.tasks if t.dag]`. -/
def buildSubDags : List Task → Option (List TemplateM)
  | [] => some []
  | .mk _ none _ _ _ _ _ :: ts => buildSubDags ts
  | .mk _ (some d) _ _ _ _ _ :: ts =>
    match DAG.build d, buildSubDags ts with
    | some l, some r => some (l ++ r)
    | _, _ => none
end

mutual
/-- Common shape of `DAG._build_volume_claim_templates` (dag.py lines
119-132) and `DAG._build_persistent_volume_claims` (dag.py lines 134-148),
which differ only in the task field read (`f`) and the dict key used
(`key`): fold the owned tasks' declarations into a fresh name-keyed dict,
then fold in each nested pipeline's already-built collection; `none`
(TypeError) when `tasks` is `None`. -/
def DAG.build_resources (f : Task → List α) (key : α → String) : DAG → Option (List α)
  | .mk _ _ _ none => none
  | .mk _ _ _ (some ts) =>
    match subResources f key ts with
    | none => none
    | some sub => some (dfold key (dfold key [] (ts.flatMap f)) sub)
/-- The flattened `[t.dag._build_...() for t in self.tasks if t.dag]`. -/
def subResources (f : Task → List α) (key : α → String) : List Task → Option (List α)
  | [] => some []
  | .mk _ none _ _ _ _ _ :: ts => subResources f key ts
  | .mk _ (some d) _ _ _ _ _ :: ts =>
    match DAG.build_resources f key d, subResources f key ts with
    | some l, some r => some (l ++ r)
    | _, _ => none
end

/-- `DAG._build_volume_claim_templates` (dag.py lines 119-132). -/
def DAG.build_volume_claim_templates : DAG → Option (List PersistentVolumeClaim) :=
  DAG.build_resources Task.volume_claim_templates (fun v => v.metadata.name)

/-- `DAG._build_persistent_volume_claims` (dag.py lines 134-148). -/
def DAG.build_persistent_volume_claims : DAG → Option (List Volume) :=
  DAG.build_resources Task.persistent_volume_claims (fun v => v.name)

mutual
/-- The pre-order visit sequence of shared-resource declarations of kind
`f`: own tasks first, then each task's nested pipeline recursively. -/
def DAG.visitResources (f : Task → List α) : DAG → List α
  | .mk _ _ _ none => []
  | .mk _ _ _ (some ts) => ts.flatMap f ++ visitSubResources f ts
def visitSubResources (f : Task → List α) : List Task → List α
  | [] => []
  | .mk _ none _ _ _ _ _ :: ts => visitSubResources f ts
  | .mk _ (some d) _ _ _ _ _ :: ts => DAG.visitResources f d ++ visitSubResources f ts
end

/-- `DAG.get_parameter` (dag.py lines 198-202): `KeyError` when no
declared output carries the name; otherwise a pipeline-scope templated
reference.  Iterating `self.outputs` raises a TypeError when it is `None`. -/
def DAG.get_parameter (d : DAG) (nm : String) : Except PyErr Parameter :=
  match d.outputs with
  | none => .error .typeError
  | some outs =>
    if (outs.find? (fun p => p.name == nm)).isNone then .error .keyError
    else .ok ⟨nm, some ("\x7b\x7binputs.parameters." ++ nm ++ "\x7d\x7d")⟩

/-! ### Metrics normalizer and the Workflow top-level assembler -/

/-- `hera.models.Prometheus` (one metrics entry), payload opaque. -/
structure Prometheus where
  id : Nat
deriving DecidableEq, Repr

/-- `hera.models.Metrics`: the engine's native plural wrapper. -/
structure Metrics where
  prometheus : List Prometheus
deriving DecidableEq, Repr

/-- A dynamically-typed `metrics` argument value. -/
inductive MetricsVal where
  | prom (p : Prometheus)
  | metricsV (m : Metrics)
  | listV (xs : List MetricsVal)
  | otherV

/-- `all([isinstance(m, Prometheus) for m in metrics])` together with the
list the `Metrics` wrapper is then built from. -/
def allProms : List MetricsVal → Option (List Prometheus)
  | [] => some []
  | .prom p :: xs => (allProms xs).map (fun r => p :: r)
  | _ :: _ => none

/-- `Workflow._parse_metrics` (workflow.py lines 193-210): a single
`Prometheus` is wrapped, a list must be all-`Prometheus`
(AssertionError otherwise), a `Metrics` wrapper passes through, `None`
stays `None`, and any other shape raises a `ValueError`. -/
def parse_metrics : Option MetricsVal → Except PyErr (Option Metrics)
  | none => .ok none
  | some (.prom p) => .ok (some ⟨[p]⟩)
  | some (.listV xs) =>
    match allProms xs with
    | some ps => .ok (some ⟨ps⟩)
    | none => .error .assertionError
  | some (.metricsV m) => .ok (some m)
  | some .otherV => .error .valueError

def isProm : MetricsVal → Bool
  | .prom _ => true
  | _ => false

/-- The recognized shapes of the `metrics` argument: a single entry, a
list of entries, the engine's plural wrapper (or absent). -/
def metricsShape : MetricsVal → Bool
  | .prom _ => true
  | .metricsV _ => true
  | .listV xs => xs.all isProm
  | .otherV => false

/-- The `Workflow` authoring object, restricted to the fields the
verified operations read or write.  The scalar passthrough settings
(parallelism, retry strategy, ...) and the network service handle are
omitted.  `in_context : Option Bool` models the Python attribute of the
same name, which exists only after `__enter__`/`__exit__` ran (`none` =
attribute never set, so reading it raises `AttributeError`). -/
structure Workflow where
  name : Option String
  dag : DAG
  inputs : List Value
  metrics : Option Metrics
  on_exit_ : Option String
  in_context : Option Bool

/-- `Workflow.__init__` (workflow.py lines 73-177), on the modelled
fields: a `None` `dag` argument is replaced by `DAG(dag_name)`; `inputs`
and `metrics` are normalized (the latter can raise); `on_exit_` starts
`None`; the `in_context` attribute is NOT set by the constructor.
Name-format validation is an external collaborator and out of scope. -/
def Workflow.init (name : Option String) (dag_name : String) (dag : Option DAG)
    (inputs : Option InputsArg) (metrics : Option MetricsVal) :
    Except PyErr Workflow :=
  match parse_metrics metrics with
  | .error e => .error e
  | .ok m =>
    .ok { name := name
          dag := dag.getD (DAG.init dag_name none none none)
          inputs := parse_inputs inputs
          metrics := m
          on_exit_ := none
          in_context := none }

/-- The subset of `hera.models.WorkflowSpec` the claims concern; the
remaining scalar settings are copied through unchanged by `_build_spec`
and are omitted. -/
structure WorkflowSpecM where
  arguments_parameters : List Parameter
  arguments_artifacts : List Artifact
  entrypoint : String
  metrics : Option Metrics
  on_exit : Option String
  templates : List TemplateM
  volume_claim_templates : List PersistentVolumeClaim
  volumes : List Volume
deriving DecidableEq, Repr

/-- `Workflow._build_spec` (workflow.py lines 259-306): arguments from
the normalized inputs, entrypoint = the root pipeline's name,
`templates = self.dag._build_templates() + self.dag.build()`, and the
deduplicated resource collections of the root pipeline; `none` when any
recursive build raises. -/
def Workflow.build_spec (w : Workflow) : Option WorkflowSpecM :=
  match w.dag.build, w.dag.build_volume_claim_templates,
        w.dag.build_persistent_volume_claims with
  | some tl, some vcl, some pvl =>
    some { arguments_parameters := w.inputs.filterMap Value.asParam
           arguments_artifacts := w.inputs.filterMap Value.asArtifact
           entrypoint := w.dag.name
           metrics := w.metrics
           on_exit := w.on_exit_
           templates := w.dag.build_templates ++ tl
           volume_claim_templates := vcl
           volumes := pvl }
  | _, _, _ => none

/-- `Workflow.__enter__` (workflow.py lines 323-330): sets `in_context`
to `True` (it also pushes the root pipeline on the ambient context
stack; that stack's effect on task construction is modelled inside
`Workflow.on_exit_dag`). -/
def Workflow.enter (w : Workflow) : Workflow := { w with in_context := some true }

/-- `Workflow.__exit__` (workflow.py lines 332-338): sets `in_context`
to `False` and pops the ambient context stack. -/
def Workflow.exitCtx (w : Workflow) : Workflow := { w with in_context := some false }

/-- `Workflow.create` (workflow.py lines 390-404): raises `ValueError`
when invoked inside an open authoring scope; reading `self.in_context`
on a workflow that never entered a scope raises `AttributeError`;
otherwise builds and submits — the submission payload is the built
specification (the network round-trip is out of scope). -/
def Workflow.create (w : Workflow) : Except PyErr WorkflowSpecM :=
  match w.in_context with
  | none => .error .attributeError
  | some true => .error .valueError
  | some false =>
    match w.build_spec with
    | some s => .ok s
    | none => .error .typeError

/-- `Workflow.on_exit` on a `DAG` argument (workflow.py lines 355-362),
invoked inside the workflow's own open scope.  The synthetic wrapper
task `Task("temp-name-for-hera-exit-dag", dag=other)` is created,
flagged as an exit task, and — modelled from the spec: "any unit of work
constructed while the stack is non-empty is added to the pipeline
currently on top" (spec section 4.1; `Task.__init__` is not under the
verified sources) — appended to the workflow's root pipeline task list
(an AttributeError, i.e. `none`, when that list is `None`); the hook
target records the inner pipeline's own name, never the wrapper's. -/
def Workflow.on_exit_dag (w : Workflow) (other : DAG) : Option Workflow :=
  match w.dag.tasks with
  | none => none
  | some ts =>
    some { w with
           dag := w.dag.withTasks (some (ts ++
             [Task.mk "temp-name-for-hera-exit-dag" (some other) true none
               ⟨"temp-name-for-hera-exit-dag", 0⟩ [] []]))
           on_exit_ := some other.name }

/-- `Workflow.on_exit` on a `Task` argument (workflow.py lines 352-354):
records the task's name as the hook target and sets its exit flag.
Python mutates the passed task object in place; the object's identity is
modelled as its position `i` in the workflow's root pipeline task list. -/
def Workflow.on_exit_task (w : Workflow) (i : Nat) : Workflow :=
  match w.dag.tasks with
  | none => w
  | some ts =>
    match ts[i]? with
    | none => w
    | some t =>
      { w with
        dag := w.dag.withTasks (some (ts.set i t.withExitFlag))
        on_exit_ := some t.name }

/-- `Workflow.get_parameter` (workflow.py lines 366-371): looks the name
up among the parameter-typed inputs only; `KeyError` when absent,
otherwise a globally-scoped templated reference.  (The source's
`self.inputs is None` guard is dead: the constructor always stores a
list.) -/
def Workflow.get_parameter (w : Workflow) (nm : String) : Except PyErr Parameter :=
  if ((w.inputs.filterMap Value.asParam).find? (fun p => p.name == nm)).isNone then
    .error .keyError
  else .ok ⟨nm, some ("\x7b\x7bworkflow.parameters." ++ nm ++ "\x7d\x7d")⟩

/-! ### The dedup rule, proved over the whole nesting tree -/

theorem lastWith_key (key : α → String) (k : String) :
    ∀ (l : List α) (w : α), lastWith key k l = some w → key w = k := by
  intro l
  induction l with
  | nil => intro w h; exact absurd h (by simp [lastWith])
  | cons v l ih =>
    intro w h
    show key w = k
    unfold lastWith at h
    cases hl : lastWith key k l with
    | some u => rw [hl] at h; cases h; exact ih w hl
    | none =>
      rw [hl] at h
      by_cases hv : key v = k
      · rw [if_pos hv] at h; cases h; exact hv
      · rw [if_neg hv] at h; cases h

theorem lastWith_filter_self (key : α → String) (k : String) (l : List α) :
    lastWith key k (l.filter (fun x => key x == k)) = lastWith key k l := by
  induction l with
  | nil => rfl
  | cons v l ih =>
    rw [List.filter_cons]
    by_cases hv : key v = k
    · rw [if_pos (by simp [hv])]
      show (match lastWith key k (l.filter fun x => key x == k) with
        | some w => some w
        | none => if key v = k then some v else none) =
        match lastWith key k l with
        | some w => some w
        | none => if key v = k then some v else none
      rw [ih]
    · rw [if_neg (by simp [hv])]
      rw [ih]
      show lastWith key k l =
        match lastWith key k l with
        | some w => some w
        | none => if key v = k then some v else none
      cases hl : lastWith key k l <;> simp [hl, hv]

theorem lastWith_toList (key : α → String) (k : String) (o : Option α)
    (ho : ∀ w, o = some w → key w = k) :
    lastWith key k o.toList = o := by
  cases o with
  | none => rfl
  | some w => simp [Option.toList, lastWith, ho w rfl]

/-- If the `k`-keyed entries of `l` are exactly the content of `o` (an
option whose content is `k`-keyed), then the last `k`-keyed entry of `l`
is `o`. -/
theorem lastWith_of_filter_eq_toList (key : α → String) (k : String)
    (l : List α) (o : Option α) (ho : ∀ w, o = some w → key w = k)
    (h : l.filter (fun x => key x == k) = o.toList) :
    lastWith key k l = o := by
  rw [← lastWith_filter_self key k l, h, lastWith_toList key k o ho]

mutual
/-- Claim core: a successful recursive shared-resource build keeps, for
each name, exactly the declaration visited last in the pre-order
traversal of the nesting tree. -/
theorem build_resources_filter (f : Task → List α) (key : α → String) :
    (d : DAG) → (res : List α) → DAG.build_resources f key d = some res →
      (k : String) → res.filter (fun x => key x == k) =
        (lastWith key k (DAG.visitResources f d)).toList
  | .mk _ _ _ none, res, h, k => by
    exact absurd h (by simp [DAG.build_resources])
  | .mk n i o (some ts), res, h, k => by
    unfold DAG.build_resources at h
    cases hs : subResources f key ts with
    | none => rw [hs] at h; exact absurd h (by simp)
    | some sub =>
      rw [hs] at h
      simp only [Option.some.injEq] at h
      subst h
      have hlast := sub_resources_lastWith f key ts sub hs k
      rw [← dfold_append, dfold_nil_filter]
      have hv : DAG.visitResources f (DAG.mk n i o (some ts)) =
          ts.flatMap f ++ visitSubResources f ts := rfl
      rw [hv, lastWith_append, lastWith_append, hlast]
/-- The concatenated nested-pipeline collections have, for each name, the
same last entry as the concatenated nested-pipeline visit sequences. -/
theorem sub_resources_lastWith (f : Task → List α) (key : α → String) :
    (ts : List Task) → (res : List α) → subResources f key ts = some res →
      (k : String) → lastWith key k res = lastWith key k (visitSubResources f ts)
  | [], res, h, k => by
    simp only [subResources, Option.some.injEq] at h
    subst h
    rfl
  | .mk _ none _ _ _ _ _ :: ts, res, h, k => by
    unfold subResources at h
    unfold visitSubResources
    exact sub_resources_lastWith f key ts res h k
  | .mk _ (some d) _ _ _ _ _ :: ts, res, h, k => by
    unfold subResources at h
    cases hd : DAG.build_resources f key d with
    | none => rw [hd] at h; exact absurd h (by simp)
    | some l =>
      cases hts : subResources f key ts with
      | none => rw [hd, hts] at h; exact absurd h (by simp)
      | some r =>
        rw [hd, hts] at h
        simp only [Option.some.injEq] at h
        subst h
        have h1 := sub_resources_lastWith f key ts r hts k
        have h2 := build_resources_filter f key d l hd k
        have h3 : lastWith key k l = lastWith key k (DAG.visitResources f d) :=
          lastWith_of_filter_eq_toList key k l _
            (fun w hw => lastWith_key key k _ w hw) h2
        show lastWith key k (l ++ r) =
          lastWith key k (DAG.visitResources f d ++ visitSubResources f ts)
        rw [lastWith_append, lastWith_append, h1, h3]
end

/-! ### Template-list helper lemmas -/

theorem subTemplates_append (a b : List Task) :
    subTemplates (a ++ b) = subTemplates a ++ subTemplates b := by
  induction a with
  | nil => rfl
  | cons t a ih =>
    cases t with
    | mk n d e tm ds v p =>
      cases d with
      | none => simpa [subTemplates] using ih
      | some dd => simp [subTemplates, ih]

theorem buildSubDags_append (a b : List Task) :
    buildSubDags (a ++ b) =
      match buildSubDags a, buildSubDags b with
      | some x, some y => some (x ++ y)
      | _, _ => none := by
  induction a with
  | nil =>
    show buildSubDags b = _
    cases buildSubDags b <;> rfl
  | cons t a ih =>
    cases t with
    | mk n d e tm ds v p =>
      cases d with
      | none =>
        show buildSubDags (a ++ b) = _
        rw [ih]
        rfl
      | some dd =>
        show (match DAG.build dd, buildSubDags (a ++ b) with
          | some l, some r => some (l ++ r)
          | _, _ => none) = _
        rw [ih]
        cases hdd : DAG.build dd <;> cases ha : buildSubDags a <;>
          cases hb : buildSubDags b <;> simp [buildSubDags, hdd, ha, hb]

/-! ### Claim theorems -/

/-- C3: the input normalizer maps `None` to the empty list; a single dict
to one `Parameter` per entry (key as name, value as value) in encounter
order; a list, in encounter order, to its already-typed entries unchanged
and one `Parameter` per entry of each dict element; and it performs no
deduplication of names (the produced name sequence of a dict input is
exactly the key sequence, duplicates included). -/
theorem parse_inputs_normalization :
    (parse_inputs none = []) ∧
    (∀ m : List (String × String),
      parse_inputs (some (.dict m)) =
        m.map (fun kv => Value.param ⟨kv.1, some kv.2⟩)) ∧
    (∀ xs : List InItem,
      parse_inputs (some (.list xs)) = xs.flatMap expandItem) ∧
    (∀ m : List (String × String),
      (parse_inputs (some (.dict m))).map Value.name = m.map Prod.fst) := by
  refine ⟨rfl, fun m => rfl, fun xs => parseInputsList_eq_flatMap xs, fun m => ?_⟩
  simp [parse_inputs, List.map_map, Function.comp, Value.name]

/-- C7: a pipeline with no owned units of work (its `tasks` and `outputs`
supplied as lists, the former empty) compiles to exactly one template
whose task list is empty, and its compiled volume-claim and
persistent-volume collections are both empty. -/
theorem empty_dag_single_template (n : String) (ins outs : List Value) :
    DAG.build (DAG.mk n ins (some outs) (some [])) =
      some [⟨n, ⟨ins.filterMap Value.asParam, ins.filterMap Value.asArtifact⟩,
             ⟨outs.filterMap Value.asParam, outs.filterMap Value.asArtifact⟩,
             ⟨[]⟩⟩] ∧
    ((DAG.build (DAG.mk n ins (some outs) (some []))).getD []).length = 1 ∧
    DAG.build_volume_claim_templates (DAG.mk n ins (some outs) (some [])) = some [] ∧
    DAG.build_persistent_volume_claims (DAG.mk n ins (some outs) (some [])) = some [] :=
  ⟨rfl, rfl, rfl, rfl⟩

theorem allProms_map (ps : List Prometheus) :
    allProms (ps.map MetricsVal.prom) = some ps := by
  induction ps with
  | nil => rfl
  | cons p ps ih => simp [allProms, ih]

theorem allProms_of_not_all (xs : List MetricsVal) (h : xs.all isProm = false) :
    allProms xs = none := by
  induction xs with
  | nil => simp at h
  | cons x xs ih =>
    cases x with
    | prom p =>
      simp only [List.all_cons, isProm, Bool.true_and] at h
      simp [allProms, ih h]
    | metricsV m => rfl
    | listV l => rfl
    | otherV => rfl

/-- C8: the metrics normalizer turns a single `Prometheus` entry, a list
of `Prometheus` entries, and a `Metrics` wrapper into the plural
`Metrics` wrapper holding those entries (`None` stays `None`), and every
input of any other shape raises a validation failure. -/
theorem parse_metrics_shapes :
    (parse_metrics none = .ok none) ∧
    (∀ p : Prometheus, parse_metrics (some (.prom p)) = .ok (some ⟨[p]⟩)) ∧
    (∀ ps : List Prometheus,
      parse_metrics (some (.listV (ps.map .prom))) = .ok (some ⟨ps⟩)) ∧
    (∀ m : Metrics, parse_metrics (some (.metricsV m)) = .ok (some m)) ∧
    (∀ v : MetricsVal, metricsShape v = false →
      ∃ e : PyErr, parse_metrics (some v) = .error e) := by
  refine ⟨rfl, fun p => rfl, fun ps => ?_, fun m => rfl, fun v hv => ?_⟩
  · simp [parse_metrics, allProms_map ps]
  · cases v with
    | prom p => simp [metricsShape] at hv
    | metricsV m => simp [metricsShape] at hv
    | listV xs =>
      simp only [metricsShape] at hv
      exact ⟨.assertionError, by simp [parse_metrics, allProms_of_not_all xs hv]⟩
    | otherV => exact ⟨.valueError, rfl⟩

/-- C8 witness: the normalizer applied to an unrecognized shape. -/
theorem parse_metrics_shapes_w :
    ∃ e : PyErr, parse_metrics (some .otherV) = .error e :=
  parse_metrics_shapes.2.2.2.2 .otherV rfl

/-- C10: a `DAG` left with its `None` defaults for `tasks` and `outputs`
fails at `add_task` and at `build` (runtime errors, not empty-collection
behaviour); conversely a successful `build` requires both `tasks` and
`outputs` to have been supplied, and a successful `add_task` requires
`tasks`. -/
theorem none_defaults_runtime_error :
    (∀ (n : String) (ins : List Value) (t : Task),
      DAG.add_task (DAG.mk n ins none none) t = none) ∧
    (∀ (n : String) (ins : List Value),
      DAG.build (DAG.mk n ins none none) = none) ∧
    (∀ d : DAG, (DAG.build d).isSome → d.outputs ≠ none ∧ d.tasks ≠ none) ∧
    (∀ (d : DAG) (t : Task), (DAG.add_task d t).isSome → d.tasks ≠ none) := by
  refine ⟨fun n ins t => rfl, fun n ins => rfl, ?_, ?_⟩
  · intro d h
    cases d with
    | mk n i o ts =>
      cases o with
      | none => exact absurd h (by simp [DAG.build])
      | some outs =>
        cases ts with
        | none => exact absurd h (by simp [DAG.build])
        | some l => exact ⟨by simp [DAG.outputs], by simp [DAG.tasks]⟩
  · intro d t h
    cases d with
    | mk n i o ts =>
      cases ts with
      | none => exact absurd h (by simp [DAG.add_task])
      | some l => simp [DAG.tasks]

/-- C10 witness: a `DAG` whose build succeeds indeed had both collections
supplied as (here empty) lists. -/
theorem none_defaults_runtime_error_w :
    (DAG.mk "d" [] (some []) (some [])).outputs ≠ none ∧
    (DAG.mk "d" [] (some []) (some [])).tasks ≠ none :=
  none_defaults_runtime_error.2.2.1 (DAG.mk "d" [] (some []) (some [])) rfl

theorem find_name_isNone {β : Type} (f : β → String) (l : List β) (nm : String) :
    ((l.find? (fun p => f p == nm)).isNone = true) ↔ nm ∉ l.map f := by
  simp only [Option.isNone_iff_eq_none, List.find?_eq_none, List.mem_map,
    beq_iff_eq, not_exists, not_and]

/-- C6: back-reference resolution on a pipeline (resp. the top-level
assembly) raises a lookup failure exactly when the name is not among the
pipeline's declared outputs (resp. the workflow's declared parameter
inputs); a declared name resolves to a fresh `Parameter` whose payload is
the templated reference string in pipeline-local (resp. global) scope. -/
theorem get_parameter_lookup (d : DAG) (outs : List Value) (w : Workflow)
    (nm nm' : String) (hd : d.outputs = some outs) :
    ((d.get_parameter nm = .error .keyError) ↔ nm ∉ outs.map Value.name) ∧
    (nm ∈ outs.map Value.name →
      d.get_parameter nm =
        .ok ⟨nm, some ("\x7b\x7binputs.parameters." ++ nm ++ "\x7d\x7d")⟩) ∧
    ((w.get_parameter nm' = .error .keyError) ↔
      nm' ∉ (w.inputs.filterMap Value.asParam).map Parameter.name) ∧
    (nm' ∈ (w.inputs.filterMap Value.asParam).map Parameter.name →
      w.get_parameter nm' =
        .ok ⟨nm', some ("\x7b\x7bworkflow.parameters." ++ nm' ++ "\x7d\x7d")⟩) := by
  have hfd := find_name_isNone Value.name outs nm
  have hfw := find_name_isNone Parameter.name (w.inputs.filterMap Value.asParam) nm'
  refine ⟨?_, ?_, ?_, ?_⟩
  · simp only [DAG.get_parameter, hd]
    by_cases hn : ((outs.find? fun p => p.name == nm).isNone = true)
    · rw [if_pos hn]
      exact iff_of_true rfl (hfd.mp hn)
    · rw [if_neg hn]
      exact iff_of_false (by simp) (fun hnm => hn (hfd.mpr hnm))
  · intro hmem
    simp only [DAG.get_parameter, hd]
    rw [if_neg (fun hn => (hfd.mp hn) hmem)]
  · unfold Workflow.get_parameter
    by_cases hn :
        (((w.inputs.filterMap Value.asParam).find? fun p => p.name == nm').isNone = true)
    · rw [if_pos hn]
      exact iff_of_true rfl (hfw.mp hn)
    · rw [if_neg hn]
      exact iff_of_false (by simp) (fun hnm => hn (hfw.mpr hnm))
  · intro hmem
    unfold Workflow.get_parameter
    rw [if_neg (fun hn => (hfw.mp hn) hmem)]

/-- Concrete inputs for the C6 witness. -/
def dagW6 : DAG :=
  DAG.mk "d" [] (some [.param ⟨"out", some "o"⟩]) (some [])

def wfW6 : Workflow :=
  { name := some "w"
    dag := DAG.mk "hera-dag" [] none none
    inputs := [.param ⟨"in", some "i"⟩, .artifact ⟨"art"⟩]
    metrics := none
    on_exit_ := none
    in_context := none }

/-- C6 witness: a declared name resolves, an undeclared one is a
`KeyError`, in both scopes. -/
theorem get_parameter_lookup_w :
    (dagW6.get_parameter "other" = .error .keyError) ∧
    (dagW6.get_parameter "out" =
      .ok ⟨"out", some "\x7b\x7binputs.parameters.out\x7d\x7d"⟩) ∧
    (wfW6.get_parameter "art" = .error .keyError) ∧
    (wfW6.get_parameter "in" =
      .ok ⟨"in", some "\x7b\x7bworkflow.parameters.in\x7d\x7d"⟩) := by
  have h1 := get_parameter_lookup dagW6 [.param ⟨"out", some "o"⟩] wfW6 "other" "art" rfl
  have h2 := get_parameter_lookup dagW6 [.param ⟨"out", some "o"⟩] wfW6 "out" "in" rfl
  exact ⟨h1.1.mpr (by decide), h2.2.1 (by decide),
         h1.2.2.1.mpr (by decide), h2.2.2.2 (by decide)⟩

/-! ### C9: `create` and the authoring scope -/

/-- "Inside an open authoring scope": the scope was entered and not yet
exited. -/
def insideOpenScope (w : Workflow) : Prop := w.in_context = some true

/-- The workflow `Workflow.__init__` produces with all-default arguments;
note that the constructor does not set the `in_context` attribute. -/
def freshWorkflow : Workflow :=
  { name := none
    dag := DAG.mk "hera-dag" [] none none
    inputs := []
    metrics := none
    on_exit_ := none
    in_context := none }

/-- C9 counterexample: a freshly constructed workflow is not inside an
open authoring scope, yet `create` does not proceed to build and submit —
it raises an `AttributeError` (the `in_context` attribute was never set
by the constructor), not the claimed behaviour. -/
theorem create_scope_counterexample :
    Workflow.init none "hera-dag" none none none = .ok freshWorkflow ∧
    ¬ insideOpenScope freshWorkflow ∧
    Workflow.create freshWorkflow = .error .attributeError := by
  refine ⟨rfl, ?_, rfl⟩
  intro h
  simp [insideOpenScope, freshWorkflow] at h

/-- C9 (amended): invoking `create` inside an open authoring scope raises
the state-misuse `ValueError` synchronously and nothing is submitted;
after a scope has been entered and exited, `create` proceeds to build and
submit; on a workflow whose scope was never opened, `create` instead
raises an `AttributeError`, because the `in_context` attribute only comes
into existence in `__enter__`/`__exit__`. -/
theorem create_scope_behaviour (w : Workflow) :
    (Workflow.create (Workflow.enter w) = .error .valueError) ∧
    (Workflow.create (Workflow.exitCtx w) ≠ .error .valueError) ∧
    (Workflow.create (Workflow.exitCtx w) ≠ .error .attributeError) ∧
    (Workflow.create (Workflow.exitCtx w) =
      match (Workflow.exitCtx w).build_spec with
      | some s => .ok s
      | none => .error .typeError) ∧
    (w.in_context = none → Workflow.create w = .error .attributeError) := by
  have hred : Workflow.create (Workflow.exitCtx w) =
      match (Workflow.exitCtx w).build_spec with
      | some s => .ok s
      | none => .error .typeError := rfl
  refine ⟨rfl, ?_, ?_, rfl, ?_⟩
  · rw [hred]
    cases h : (Workflow.exitCtx w).build_spec <;> simp [h]
  · rw [hred]
    cases h : (Workflow.exitCtx w).build_spec <;> simp [h]
  · intro h
    simp [Workflow.create, h]

/-- C9 witness: the amended behaviour at the fresh default workflow. -/
theorem create_scope_behaviour_w :
    Workflow.create freshWorkflow = .error .attributeError :=
  (create_scope_behaviour freshWorkflow).2.2.2.2 rfl

/-- C2: whenever the shared-resource builds of a DAG tree succeed, the
compiled collection of each kind (volume claim templates / persistent
volumes) contains, for every name, exactly one entry: the declaration
visited last in the pre-order traversal (own tasks first, then each
task's nested DAG recursively).  In particular two same-named
declarations at any two nesting depths leave exactly the later-visited
one. -/
theorem shared_resource_dedup_last_wins (d : DAG) (nm : String)
    (vres : List PersistentVolumeClaim) (pres : List Volume)
    (hv : d.build_volume_claim_templates = some vres)
    (hp : d.build_persistent_volume_claims = some pres) :
    vres.filter (fun v => v.metadata.name == nm) =
      (lastWith (fun v => v.metadata.name) nm
        (DAG.visitResources Task.volume_claim_templates d)).toList ∧
    pres.filter (fun v => v.name == nm) =
      (lastWith (fun v => v.name) nm
        (DAG.visitResources Task.persistent_volume_claims d)).toList :=
  ⟨build_resources_filter Task.volume_claim_templates (fun v => v.metadata.name)
      d vres hv nm,
   build_resources_filter Task.persistent_volume_claims (fun v => v.name)
      d pres hp nm⟩

/-- Concrete two-level tree for the C2 witness: the name `shared` (resp.
`pv`) is declared at both depths with different payloads. -/
def dagW2 : DAG :=
  DAG.mk "outer" [] (some [])
    (some [Task.mk "t1"
      (some (DAG.mk "inner" [] (some [])
        (some [Task.mk "t2" none false none ⟨"t2", 0⟩
          [⟨⟨"shared"⟩, 2⟩] [⟨"pv", 20⟩]])))
      false none ⟨"t1", 0⟩ [⟨⟨"shared"⟩, 1⟩] [⟨"pv", 10⟩]])

/-- C2 witness: at the concrete tree, each collection keeps exactly the
deeper (later-visited) declaration. -/
theorem shared_resource_dedup_last_wins_w :
    ((DAG.build_volume_claim_templates dagW2).getD []).filter
        (fun v => v.metadata.name == "shared") = [⟨⟨"shared"⟩, 2⟩] ∧
    ((DAG.build_persistent_volume_claims dagW2).getD []).filter
        (fun v => v.name == "pv") = [⟨"pv", 20⟩] := by
  have h1 := shared_resource_dedup_last_wins dagW2 "shared"
    [⟨⟨"shared"⟩, 2⟩] [⟨"pv", 20⟩] rfl rfl
  have h2 := shared_resource_dedup_last_wins dagW2 "pv"
    [⟨⟨"shared"⟩, 2⟩] [⟨"pv", 20⟩] rfl rfl
  exact ⟨h1.1.trans (by decide), h2.2.trans (by decide)⟩

/-- C1: a workflow whose root pipeline is nested three levels deep — the
root DAG owns one task whose `dag` is a second DAG owning one task whose
`dag` is a third DAG — compiles to a specification with exactly three
templates, named for the three nesting levels, each appearing exactly
once.  The two nesting tasks are pure propagation vehicles (their own
template is `None`); their exit flags, descriptors and resource
declarations are arbitrary. -/
theorem nested_three_levels_three_templates
    (wname : Option String) (wins : List Value) (wm : Option Metrics)
    (wexit : Option String) (wctx : Option Bool) (t1 t2 : Task)
    (n1 n2 n3 : String) (ins1 ins2 ins3 outs1 outs2 outs3 : List Value)
    (ht2 : t2.dag = some (DAG.mk n3 ins3 (some outs3) (some [])))
    (ht2t : t2.template = none)
    (ht1 : t1.dag = some (DAG.mk n2 ins2 (some outs2) (some [t2])))
    (ht1t : t1.template = none)
    (h12 : ¬ n1 = n2) (h13 : ¬ n1 = n3) (h23 : ¬ n2 = n3) :
    ((Workflow.build_spec
        ⟨wname, DAG.mk n1 ins1 (some outs1) (some [t1]), wins, wm, wexit, wctx⟩).map
      (fun s => s.templates.length)) = some 3 ∧
    ((Workflow.build_spec
        ⟨wname, DAG.mk n1 ins1 (some outs1) (some [t1]), wins, wm, wexit, wctx⟩).map
      (fun s => s.templates.map TemplateM.name)) = some [n1, n2, n3] ∧
    ((Workflow.build_spec
        ⟨wname, DAG.mk n1 ins1 (some outs1) (some [t1]), wins, wm, wexit, wctx⟩).map
      (fun s => (s.templates.map TemplateM.name).count n1)) = some 1 ∧
    ((Workflow.build_spec
        ⟨wname, DAG.mk n1 ins1 (some outs1) (some [t1]), wins, wm, wexit, wctx⟩).map
      (fun s => (s.templates.map TemplateM.name).count n2)) = some 1 ∧
    ((Workflow.build_spec
        ⟨wname, DAG.mk n1 ins1 (some outs1) (some [t1]), wins, wm, wexit, wctx⟩).map
      (fun s => (s.templates.map TemplateM.name).count n3)) = some 1 := by
  have h21 : ¬ n2 = n1 := fun h => h12 h.symm
  have h31 : ¬ n3 = n1 := fun h => h13 h.symm
  have h32 : ¬ n3 = n2 := fun h => h23 h.symm
  obtain ⟨tn2, tdag2, te2, ttm2, tds2, tv2, tp2⟩ := t2
  simp only [Task.dag] at ht2
  simp only [Task.template] at ht2t
  subst ht2
  subst ht2t
  obtain ⟨tn1, tdag1, te1, ttm1, tds1, tv1, tp1⟩ := t1
  simp only [Task.dag] at ht1
  simp only [Task.template] at ht1t
  subst ht1
  subst ht1t
  refine ⟨rfl, rfl, ?_, ?_, ?_⟩ <;>
    simp [Workflow.build_spec, DAG.build, buildSubDags, DAG.build_templates,
      subTemplates, Task.template, DAG.build_volume_claim_templates,
      DAG.build_persistent_volume_claims, DAG.build_resources, subResources,
      List.count_cons, h12, h13, h23, h21, h31, h32]

/-- C1 witness: the three-level scenario at concrete names. -/
theorem nested_three_levels_three_templates_w :
    ((Workflow.build_spec
        ⟨none,
         DAG.mk "a" [] (some [])
           (some [Task.mk "t1"
             (some (DAG.mk "b" [] (some [])
               (some [Task.mk "t2" (some (DAG.mk "c" [] (some []) (some [])))
                 false none ⟨"t2", 0⟩ [] []])))
             false none ⟨"t1", 0⟩ [] []]),
         [], none, none, none⟩).map
      (fun s => s.templates.map TemplateM.name)) = some ["a", "b", "c"] :=
  (nested_three_levels_three_templates none [] none none none
    (Task.mk "t1"
      (some (DAG.mk "b" [] (some [])
        (some [Task.mk "t2" (some (DAG.mk "c" [] (some []) (some [])))
          false none ⟨"t2", 0⟩ [] []])))
      false none ⟨"t1", 0⟩ [] [])
    (Task.mk "t2" (some (DAG.mk "c" [] (some []) (some []))) false none
      ⟨"t2", 0⟩ [] [])
    "a" "b" "c" [] [] [] [] [] [] rfl rfl rfl rfl
    (by decide) (by decide) (by decide)).2.1

theorem DAG.withTasks_tasks (d : DAG) (x : Option (List Task)) :
    (d.withTasks x).tasks = x := by
  cases d
  rfl

theorem Task.withExitFlag_exit (t : Task) : t.withExitFlag.is_exit_task = true := by
  cases t
  rfl

theorem DAG.build_dag_tasks_eq (d : DAG) :
    d.build_dag_tasks =
      match d.tasks with
      | none => []
      | some ts => buildDagTasksList ts := by
  cases d with
  | mk n i o ts => cases ts <;> rfl

/-- On tasks surviving the non-exit filter, the descriptor build never
returns `None`, so the dependency-descriptor list is exactly the non-exit
tasks' descriptors. -/
theorem buildDagTasksList_eq_map (l : List Task) :
    buildDagTasksList l =
      (l.filter (fun x => !x.is_exit_task)).map Task.descriptor := by
  induction l with
  | nil => rfl
  | cons t l ih =>
    by_cases he : t.is_exit_task = true
    · simp [buildDagTasksList, List.filter_cons, he] at ih ⊢
      exact ih
    · simp only [Bool.not_eq_true] at he
      simp [buildDagTasksList, List.filter_cons, he, Task.build_dag_task] at ih ⊢
      exact ih

/-- C5: registering a unit of work (identified by its position `i` in the
root pipeline's task list) as the exit hook sets the hook target to the
task's name and flags it as an exit task, and the dependency-descriptor
compilation of the task list afterwards yields exactly the non-exit
tasks' descriptors — the registered task excluded. -/
theorem on_exit_task_excluded (w : Workflow) (ts : List Task) (i : Nat) (t : Task)
    (hts : w.dag.tasks = some ts) (hit : ts[i]? = some t) :
    (Workflow.on_exit_task w i).on_exit_ = some t.name ∧
    (Workflow.on_exit_task w i).dag.tasks = some (ts.set i t.withExitFlag) ∧
    t.withExitFlag.is_exit_task = true ∧
    DAG.build_dag_tasks (Workflow.on_exit_task w i).dag =
      ((ts.set i t.withExitFlag).filter (fun x => !x.is_exit_task)).map
        Task.descriptor ∧
    t.withExitFlag ∉ (ts.set i t.withExitFlag).filter (fun x => !x.is_exit_task) := by
  have hw : Workflow.on_exit_task w i =
      { w with
        dag := w.dag.withTasks (some (ts.set i t.withExitFlag))
        on_exit_ := some t.name } := by
    unfold Workflow.on_exit_task
    rw [hts]
    simp only [hit]
  rw [hw]
  refine ⟨rfl, DAG.withTasks_tasks _ _, Task.withExitFlag_exit t, ?_, ?_⟩
  · rw [DAG.build_dag_tasks_eq, DAG.withTasks_tasks]
    exact buildDagTasksList_eq_map _
  · intro hmem
    rw [List.mem_filter] at hmem
    rw [Task.withExitFlag_exit t] at hmem
    simp at hmem

/-- Concrete workflow for the C5 witness: two tasks, the first becomes the
exit hook. -/
def wfW5 : Workflow :=
  { name := some "w"
    dag := DAG.mk "main" [] (some [])
      (some [Task.mk "ta" none false none ⟨"ta", 0⟩ [] [],
             Task.mk "tb" none false none ⟨"tb", 1⟩ [] []])
    inputs := []
    metrics := none
    on_exit_ := none
    in_context := none }

/-- C5 witness: after registration the hook target is the task's name and
only the other task's descriptor is compiled. -/
theorem on_exit_task_excluded_w :
    (Workflow.on_exit_task wfW5 0).on_exit_ = some "ta" ∧
    DAG.build_dag_tasks (Workflow.on_exit_task wfW5 0).dag = [⟨"tb", 1⟩] := by
  have h := on_exit_task_excluded wfW5
    [Task.mk "ta" none false none ⟨"ta", 0⟩ [] [],
     Task.mk "tb" none false none ⟨"tb", 1⟩ [] []]
    0 (Task.mk "ta" none false none ⟨"ta", 0⟩ [] []) rfl rfl
  exact ⟨h.1, h.2.2.2.1.trans (by decide)⟩

/-- C4: registering a pipeline as the exit hook (inside the workflow's
open scope) records the pipeline's own name — never the synthetic
wrapper task's — as the hook target, and every template of that pipeline
(both its recursively flattened task templates and its recursively built
per-level templates) is present in the subsequently compiled template
list of the workflow specification. -/
theorem on_exit_dag_propagation (w w' : Workflow) (other : DAG) (ts : List Task)
    (spec : WorkflowSpecM) (lo : List TemplateM)
    (hts : w.dag.tasks = some ts)
    (hreg : Workflow.on_exit_dag w other = some w')
    (hspec : w'.build_spec = some spec)
    (hlo : other.build = some lo) :
    w'.on_exit_ = some other.name ∧
    (∀ x ∈ other.build_templates, x ∈ spec.templates) ∧
    (∀ x ∈ lo, x ∈ spec.templates) := by
  obtain ⟨wn, wd, wi, wmm, woe, wic⟩ := w
  cases wd with
  | mk dn di dout dts =>
    simp only [DAG.tasks] at hts
    subst hts
    simp only [Workflow.on_exit_dag, DAG.tasks, DAG.withTasks,
      Option.some.injEq] at hreg
    subst hreg
    refine ⟨rfl, ?_⟩
    cases dout with
    | none => exact absurd hspec (by simp [Workflow.build_spec, DAG.build])
    | some wouts =>
      cases hb : buildSubDags ts with
      | none =>
        refine absurd hspec ?_
        have hsub : buildSubDags (ts ++
            [Task.mk "temp-name-for-hera-exit-dag" (some other) true none
              ⟨"temp-name-for-hera-exit-dag", 0⟩ [] []]) = none := by
          rw [buildSubDags_append, hb]
        simp [Workflow.build_spec, DAG.build, hsub]
      | some sa =>
        have hsub : buildSubDags (ts ++
            [Task.mk "temp-name-for-hera-exit-dag" (some other) true none
              ⟨"temp-name-for-hera-exit-dag", 0⟩ [] []]) =
            some (sa ++ (lo ++ [])) := by
          rw [buildSubDags_append, hb]
          simp [buildSubDags, hlo]
        cases hv : DAG.build_volume_claim_templates
            (DAG.mk dn di (some wouts) (some (ts ++
              [Task.mk "temp-name-for-hera-exit-dag" (some other) true none
                ⟨"temp-name-for-hera-exit-dag", 0⟩ [] []]))) with
        | none =>
          exact absurd hspec (by simp [Workflow.build_spec, hv])
        | some vcl =>
          cases hp : DAG.build_persistent_volume_claims
              (DAG.mk dn di (some wouts) (some (ts ++
                [Task.mk "temp-name-for-hera-exit-dag" (some other) true none
                  ⟨"temp-name-for-hera-exit-dag", 0⟩ [] []]))) with
          | none =>
            exact absurd hspec (by simp [Workflow.build_spec, hv, hp])
          | some pvl =>
            simp only [Workflow.build_spec, DAG.build, hsub, hv, hp,
              Option.some.injEq] at hspec
            subst hspec
            constructor <;> intro x hx <;>
              simp only [DAG.build_templates, subTemplates_append, subTemplates,
                List.append_nil, List.mem_append, List.mem_cons] at hx ⊢ <;>
              tauto

/-- Concrete workflow and exit pipeline for the C4 witness. -/
def wfW4 : Workflow :=
  { name := some "w"
    dag := DAG.mk "main" [] (some []) (some [])
    inputs := []
    metrics := none
    on_exit_ := none
    in_context := some true }

def otherW4 : DAG := DAG.mk "exit-dag" [] (some []) (some [])

/-- The workflow state `on_exit` leaves behind at the witness inputs. -/
def wfW4' : Workflow :=
  { name := some "w"
    dag := DAG.mk "main" [] (some [])
      (some [Task.mk "temp-name-for-hera-exit-dag" (some otherW4) true none
        ⟨"temp-name-for-hera-exit-dag", 0⟩ [] []])
    inputs := []
    metrics := none
    on_exit_ := some "exit-dag"
    in_context := some true }

/-- The specification compiled from `wfW4'`. -/
def specW4 : WorkflowSpecM :=
  { arguments_parameters := []
    arguments_artifacts := []
    entrypoint := "main"
    metrics := none
    on_exit := some "exit-dag"
    templates := [⟨"main", ⟨[], []⟩, ⟨[], []⟩, ⟨[]⟩⟩,
                  ⟨"exit-dag", ⟨[], []⟩, ⟨[], []⟩, ⟨[]⟩⟩]
    volume_claim_templates := []
    volumes := [] }

/-- C4 witness: the hook target is the pipeline's own name and the
pipeline's template is present in the compiled template list. -/
theorem on_exit_dag_propagation_w :
    wfW4'.on_exit_ = some "exit-dag" ∧
    (⟨"exit-dag", ⟨[], []⟩, ⟨[], []⟩, ⟨[]⟩⟩ : TemplateM) ∈ specW4.templates := by
  have h := on_exit_dag_propagation wfW4 wfW4' otherW4 [] specW4
    [⟨"exit-dag", ⟨[], []⟩, ⟨[], []⟩, ⟨[]⟩⟩] rfl rfl rfl rfl
  exact ⟨h.1, h.2.2 _ (by simp)⟩
